import Mathlib

/-!
Shallow embedding of the real-time monocular depth-estimation pipeline from
`src/Strategy_for_Real_Time_optimized_depth_estimation.ipynb`.

Images, depth maps and flow fields (numpy arrays in the source) are modelled
as lists of rows of rational values; floating-point arithmetic is modelled by
exact rational arithmetic.  External library routines (the MiDaS model,
`cv2.calcOpticalFlowFarneback`, `cv2.remap`, `torch.nn.functional.interpolate`)
are not code of this repository; the numeric flow/depth values they produce are
abstracted as oracle parameters, while their dimension contracts and the
documented sampling semantics of `cv2.remap` (bilinear interpolation with
`BORDER_REFLECT` boundary handling) are modelled explicitly, following the
spec's description of these collaborators.
-/

namespace DepthPipeline

/-- Error taxonomy of the pipeline (spec section 7): dimension mismatches are
rejected by the flow estimator, inference failures are propagated from the
external collaborator, and propagation from an undefined previous state is an
internal invariant violation. -/
inductive PErr where
  | dimensionMismatch
  | inferenceFailure
  | uninitializedStateAccess
deriving DecidableEq

/-- A 2D grid (numpy array) as a list of rows. -/
structure Mat (α : Type) where
  data : List (List α)
deriving DecidableEq

/-- Number of rows. -/
def Mat.height (m : Mat α) : Nat := m.data.length

/-- Number of columns, read off the first row (0 for an empty grid). -/
def Mat.width (m : Mat α) : Nat := (m.data.headD []).length

/-- Well-formedness: every row has the grid's width. -/
def Mat.wf (m : Mat α) : Prop := ∀ r ∈ m.data, r.length = m.width

/-- Entry at row `y`, column `x`, with default `d` out of range. -/
def Mat.entry (m : Mat α) (d : α) (y x : Nat) : α := (m.data.getD y []).getD x d

/-- Build an `h × w` grid from an entry function. -/
def Mat.ofFn (h w : Nat) (f : Nat → Nat → α) : Mat α :=
  ⟨(List.range h).map fun y => (List.range w).map fun x => f y x⟩

/-- A colour pixel in OpenCV's BGR channel order. -/
structure Pix where
  b : ℚ
  g : ℚ
  r : ℚ
deriving DecidableEq

/-- A grayscale frame (`gray` in the source). -/
abbrev Gray := Mat ℚ

/-- A depth map. -/
abbrev Depth := Mat ℚ

/-- A per-pixel 2D displacement (`flow[..., 0]`, `flow[..., 1]`). -/
structure Flow2 where
  fx : ℚ
  fy : ℚ
deriving DecidableEq

/-- A dense flow field, same grid shape as the frame pair. -/
abbrev FlowField := Mat Flow2

/-- Configuration `FRAME_SKIP = 5`: estimate depth every N frames (source
configuration cell). -/
def FRAME_SKIP : Nat := 5

/-- Configuration `TEMPORAL_ALPHA = 0.9`: exponential-moving-average weight (source
configuration cell). -/
def TEMPORAL_ALPHA : ℚ := 9 / 10

/-- The per-frame scheduling decision. -/
inductive Decision where
  | INFER
  | PROPAGATE
deriving DecidableEq

/-- The scheduling branch of the source's main loop:
`if frame_count % FRAME_SKIP == 0 or prev_depth is None:` run full inference,
`else` propagate.  The skip interval is the configuration value `FRAME_SKIP`;
it is kept as a parameter here so the policy can be stated for any interval. -/
def scheduleDecision (skip_interval frame_count : Nat)
    (prev_depth_defined : Bool) : Decision :=
  if frame_count % skip_interval = 0 ∨ prev_depth_defined = false then
    .INFER
  else
    .PROPAGATE

/-- Claim C1: for every `frameIndex` and every state of `previousDepth`, the
per-frame scheduling decision chooses `INFER` iff
`frameIndex mod SKIP_INTERVAL = 0` or `previousDepth` is undefined, and
chooses `PROPAGATE` otherwise; `SKIP_INTERVAL = 1` yields `INFER` on every
frame. -/
theorem scheduling_decision_iff (k fi : Nat) (pd : Bool) (hk : 0 < k) :
    (scheduleDecision k fi pd = Decision.INFER ↔
      (fi % k = 0 ∨ pd = false)) ∧
    scheduleDecision 1 fi pd = Decision.INFER ∧
    (scheduleDecision k fi pd = Decision.PROPAGATE ↔
      ¬(fi % k = 0 ∨ pd = false)) := by
  refine ⟨?_, ?_, ?_⟩
  · unfold scheduleDecision
    split <;> simp_all
  · unfold scheduleDecision
    simp [Nat.mod_one]
  · unfold scheduleDecision
    split <;> simp_all

/-- Witness for C1 at a concrete input: frame 3 with a defined previous depth
and skip interval 5 is scheduled `PROPAGATE`. -/
theorem scheduling_decision_iff_witness :
    scheduleDecision 5 3 true = Decision.PROPAGATE :=
  (scheduling_decision_iff 5 3 true (by decide)).2.2.mpr (by decide)

/-- Floor of a rational, as OpenCV's `cvFloor` applied to the (exact) sampling
coordinate: floor division of numerator by denominator. -/
def qfloor (q : ℚ) : Int := Int.fdiv q.num q.den

/-- OpenCV's `borderInterpolate(p, len, BORDER_REFLECT)`: an out-of-range
coordinate is mirrored back into `[0, len)` about the grid edges, the edge
pixel included in the reflection (`fedcba|abcdefgh|hgfedcb`).  Closed form of
the reflection loop: reduce modulo the period `2*len`, then fold the upper
half back. -/
def reflectIdx (len : Nat) (p : Int) : Nat :=
  if len = 0 then 0
  else
    let m := (p % (2 * (len : Int))).toNat
    if m < len then m else 2 * len - 1 - m

/-- Grid access at possibly out-of-range integer coordinates, resolved with
the `BORDER_REFLECT` policy. -/
def Mat.atRefl (m : Mat ℚ) (y x : Int) : ℚ :=
  m.entry 0 (reflectIdx m.height y) (reflectIdx m.width x)

/-- One output sample of `cv2.remap(..., interpolation=cv2.INTER_LINEAR,
borderMode=cv2.BORDER_REFLECT)`: bilinear interpolation of the four grid
neighbours of the sampling coordinate `(fx, fy)`, each neighbour index
resolved by reflection (exact arithmetic; the fixed-point rounding of the
library routine is abstracted away). -/
def bilinearSample (m : Mat ℚ) (fx fy : ℚ) : ℚ :=
  let x0 := qfloor fx
  let y0 := qfloor fy
  let dx := fx - (x0 : ℚ)
  let dy := fy - (y0 : ℚ)
  (1 - dy) * ((1 - dx) * m.atRefl y0 x0 + dx * m.atRefl y0 (x0 + 1)) +
    dy * ((1 - dx) * m.atRefl (y0 + 1) x0 + dx * m.atRefl (y0 + 1) (x0 + 1))

/-- Modelled from the spec: `cv2.remap` is an external library routine; the
source calls it with `interpolation=cv2.INTER_LINEAR` and
`borderMode=cv2.BORDER_REFLECT`, so it is modelled by its documented
semantics — the output has the shape of the coordinate maps, and each output
pixel is the bilinear sample of `src` at the mapped coordinate with
reflective boundary handling. -/
def remap (src : Mat ℚ) (map_x map_y : Mat ℚ) : Mat ℚ :=
  Mat.ofFn map_x.height map_x.width fun y x =>
    bilinearSample src (map_x.entry 0 y x) (map_y.entry 0 y x)

/-- The numeric content of the external dense optical-flow algorithm,
abstracted: a per-pixel displacement for each grid position. -/
abbrev FlowOracle := Gray → Gray → Nat → Nat → Flow2

/-- Modelled from the spec: `cv2.calcOpticalFlowFarneback` is an external
library capability (spec section 4.2).  Only its interface contract is
modelled: inputs of unequal dimensions are rejected at the boundary before
any flow computation; otherwise it produces a flow field of the inputs'
dimensions whose displacement values come from the abstract oracle. -/
def calcOpticalFlowFarneback (oracle : FlowOracle) (prev next : Gray) :
    Except PErr FlowField :=
  if prev.height = next.height ∧ prev.width = next.width then
    .ok (Mat.ofFn prev.height prev.width fun y x => oracle prev next y x)
  else
    .error .dimensionMismatch

/-- Translation of `propagate_depth_optical_flow`: compute the flow field
between the two grays, build the coordinate maps
`remap_x = meshgrid_x + flow[..., 0]`, `remap_y = meshgrid_y + flow[..., 1]`
over the flow field's `h × w` shape, and warp `prev_depth` with
`cv2.remap` (bilinear, reflective border). -/
def propagate_depth_optical_flow (oracle : FlowOracle)
    (prev_gray curr_gray : Gray) (prev_depth : Depth) : Except PErr Depth :=
  match calcOpticalFlowFarneback oracle prev_gray curr_gray with
  | .error e => .error e
  | .ok flow =>
    let h := flow.height
    let w := flow.width
    let remap_x := Mat.ofFn h w fun y x => (x : ℚ) + (flow.entry ⟨0, 0⟩ y x).fx
    let remap_y := Mat.ofFn h w fun y x => (y : ℚ) + (flow.entry ⟨0, 0⟩ y x).fy
    .ok (remap prev_depth remap_x remap_y)

/-- Entry access under numpy's 2D broadcasting: an axis of extent 1 is
repeated along the other operand's extent. -/
def Mat.bget (m : Mat ℚ) (y x : Nat) : ℚ :=
  (m.data.getD (if m.height = 1 then 0 else y) []).getD
    (if m.width = 1 then 0 else x) 0

/-- Translation of `apply_temporal_filter`:
`TEMPORAL_ALPHA * prev_filtered + (1 - TEMPORAL_ALPHA) * new_depth`, numpy
elementwise arithmetic with 2D broadcasting; non-broadcastable shapes raise,
modelled as a dimension-mismatch error.  The weight is the configuration
constant `TEMPORAL_ALPHA`, kept as a parameter `alpha` so properties can be
stated for any weight. -/
def apply_temporal_filter (alpha : ℚ) (new_depth prev_filtered : Mat ℚ) :
    Except PErr (Mat ℚ) :=
  if (prev_filtered.height = new_depth.height ∨ prev_filtered.height = 1 ∨
        new_depth.height = 1) ∧
     (prev_filtered.width = new_depth.width ∨ prev_filtered.width = 1 ∨
        new_depth.width = 1) then
    .ok (Mat.ofFn (max prev_filtered.height new_depth.height)
        (max prev_filtered.width new_depth.width) fun y x =>
      alpha * prev_filtered.bget y x + (1 - alpha) * new_depth.bget y x)
  else
    .error .dimensionMismatch

/-- The temporal-smoothing branch of the source's main loop:
`if filtered_depth is None: filtered_depth = depth_map`
`else: filtered_depth = apply_temporal_filter(depth_map, filtered_depth)`. -/
def temporalSmoothStage (depth_map : Depth) (filtered : Option Depth) :
    Except PErr Depth :=
  match filtered with
  | none => .ok depth_map
  | some prev_filtered =>
    apply_temporal_filter TEMPORAL_ALPHA depth_map prev_filtered

/-- Grayscale conversion `cv2.cvtColor(frame, cv2.COLOR_BGR2GRAY)`:
pixelwise luminance with OpenCV's weights, dimensions preserved. -/
def cvtColorBGR2GRAY (frame : Mat Pix) : Gray :=
  ⟨frame.data.map fun row => row.map fun p =>
    (299 * p.r + 587 * p.g + 114 * p.b) / 1000⟩

/-- Modelled from the spec: `torch.nn.functional.interpolate` is an external
resampling routine; only its output-size contract matters to the pipeline
(the result grid has exactly the requested `h × w` shape).  The bicubic
sample values are modelled by nearest-index sampling. -/
def resizeTo (h w : Nat) (m : Mat ℚ) : Mat ℚ :=
  Mat.ofFn h w fun y x => m.entry 0 (y * m.height / h) (x * m.width / w)

/-- Translation of `estimate_depth_midas`: the MiDaS model and its input
transform are the external inference collaborator, abstracted as the fallible
`midas` oracle; its prediction is resized back to the frame's spatial
dimensions (`size=img_rgb.shape[:2]`, which equals the frame's shape since
the BGR→RGB conversion preserves dimensions). -/
def estimate_depth_midas (midas : Mat Pix → Except PErr (Mat ℚ))
    (frame : Mat Pix) : Except PErr (Mat ℚ) :=
  match midas frame with
  | .error e => .error e
  | .ok prediction => .ok (resizeTo frame.height frame.width prediction)

/-- The per-stream mutable state threaded by the source's main loop:
`frame_count`, `prev_gray`, `prev_depth`, `filtered_depth`, all
undefined (`None`) before the first frame. -/
structure PipelineState where
  frame_count : Nat
  prev_gray : Option Gray
  prev_depth : Option Depth
  filtered_depth : Option Depth
deriving DecidableEq

/-- The tail of one loop iteration, after `depth_map` has been produced:
the temporal-smoothing branch followed by the state update
`prev_gray = gray; prev_depth = depth_map; frame_count += 1`.  On a smoothing
failure the state passed in is returned unchanged (the source script would
stop there with the globals as they stand at that point). -/
def finishFrame (s : PipelineState) (gray : Gray) (depth_map : Depth) :
    Except PErr Depth × PipelineState :=
  match temporalSmoothStage depth_map s.filtered_depth with
  | .error e => (.error e, s)
  | .ok fd =>
    (.ok fd,
     { frame_count := s.frame_count + 1
       prev_gray := some gray
       prev_depth := some depth_map
       filtered_depth := some fd })

/-- One iteration of the source's main loop, as the orchestrator's
`processFrame`: grayscale conversion, the scheduling branch (note that the
`INFER` branch assigns `prev_depth = depth_map` immediately, before the
smoothing stage runs), then smoothing and the state update.  The value
component is the produced (filtered) depth map or the first error raised;
the state component is the state as it stands when the iteration ends,
including mutations made before a failure. -/
def processFrame (oracle : FlowOracle) (midas : Mat Pix → Except PErr (Mat ℚ))
    (s : PipelineState) (frame : Mat Pix) : Except PErr Depth × PipelineState :=
  let gray := cvtColorBGR2GRAY frame
  match scheduleDecision FRAME_SKIP s.frame_count s.prev_depth.isSome with
  | .INFER =>
    match estimate_depth_midas midas frame with
    | .error e => (.error e, s)
    | .ok depth_map =>
      finishFrame { s with prev_depth := some depth_map } gray depth_map
  | .PROPAGATE =>
    match s.prev_gray, s.prev_depth with
    | some pg, some pd =>
      match propagate_depth_optical_flow oracle pg gray pd with
      | .error e => (.error e, s)
      | .ok depth_map => finishFrame s gray depth_map
    | _, _ => (.error .uninitializedStateAccess, s)

@[simp]
theorem Mat.height_ofFn (h w : Nat) (f : Nat → Nat → α) :
    (Mat.ofFn h w f).height = h := by
  unfold Mat.ofFn Mat.height
  simp

theorem Mat.width_ofFn (h w : Nat) (f : Nat → Nat → α) (hpos : 0 < h) :
    (Mat.ofFn h w f).width = w := by
  obtain ⟨n, rfl⟩ := Nat.exists_eq_succ_of_ne_zero (Nat.pos_iff_ne_zero.mp hpos)
  unfold Mat.ofFn Mat.width
  rw [List.range_succ_eq_map]
  simp

theorem Mat.entry_ofFn (h w : Nat) (f : Nat → Nat → α) (d : α) (y x : Nat)
    (hy : y < h) (hx : x < w) : (Mat.ofFn h w f).entry d y x = f y x := by
  unfold Mat.ofFn Mat.entry
  simp [List.getD_eq_getElem?_getD, hy, hx]

theorem Mat.bget_eq_entry (m : Mat ℚ) (y x : Nat)
    (hy : y < m.height) (hx : x < m.width) : m.bget y x = m.entry 0 y x := by
  unfold Mat.bget Mat.entry
  have h1 : (if m.height = 1 then 0 else y) = y := by
    split <;> omega
  have h2 : (if m.width = 1 then 0 else x) = x := by
    split <;> omega
  rw [h1, h2]

theorem cvtColor_height (frame : Mat Pix) :
    (cvtColorBGR2GRAY frame).height = frame.height := by
  unfold cvtColorBGR2GRAY Mat.height
  simp

theorem cvtColor_width (frame : Mat Pix) :
    (cvtColorBGR2GRAY frame).width = frame.width := by
  obtain ⟨rows⟩ := frame
  unfold cvtColorBGR2GRAY Mat.width
  cases rows <;> simp

theorem reflectIdx_lt (len : Nat) (p : Int) (hpos : 0 < len) :
    reflectIdx len p < len := by
  simp only [reflectIdx]
  rw [if_neg (by omega)]
  have h2 : (0 : Int) < 2 * (len : Int) := by positivity
  have hm1 := Int.emod_nonneg p (ne_of_gt h2)
  have hm2 := Int.emod_lt_of_pos p h2
  split <;> omega

theorem reflectIdx_of_lt (len i : Nat) (hi : i < len) :
    reflectIdx len (i : Int) = i := by
  simp only [reflectIdx]
  rw [if_neg (by omega)]
  have h1 : ((i : Int) % (2 * (len : Int))) = i :=
    Int.emod_eq_of_lt (by positivity) (by omega)
  simp only [h1, Int.toNat_natCast]
  rw [if_pos hi]

theorem reflectIdx_mirror_low (len i : Nat) (hi : i < len) :
    reflectIdx len (-1 - (i : Int)) = i := by
  simp only [reflectIdx]
  rw [if_neg (by omega)]
  have h1 : (-1 - (i : Int)) % (2 * (len : Int)) = 2 * (len : Int) - 1 - i := by
    rw [show (-1 - (i : Int)) =
        (2 * (len : Int) - 1 - i) + 2 * (len : Int) * (-1) by ring]
    rw [Int.add_mul_emod_self_left]
    exact Int.emod_eq_of_lt (by omega) (by omega)
  simp only [h1]
  rw [if_neg (by omega)]
  omega

theorem reflectIdx_mirror_high (len i : Nat) (hi : i < len) :
    reflectIdx len ((len : Int) + i) = len - 1 - i := by
  simp only [reflectIdx]
  rw [if_neg (by omega)]
  have h1 : ((len : Int) + i) % (2 * (len : Int)) = (len : Int) + i :=
    Int.emod_eq_of_lt (by omega) (by omega)
  simp only [h1]
  rw [if_neg (by omega)]
  omega

theorem qfloor_natCast (n : Nat) : qfloor (n : ℚ) = n := by
  unfold qfloor
  rw [Rat.num_natCast, Rat.den_natCast]
  simp

theorem bilinearSample_natCast (m : Mat ℚ) (y x : Nat)
    (hy : y < m.height) (hx : x < m.width) :
    bilinearSample m (x : ℚ) (y : ℚ) = m.entry 0 y x := by
  unfold bilinearSample
  rw [qfloor_natCast, qfloor_natCast]
  have hdx : (x : ℚ) - ((x : Int) : ℚ) = 0 := by push_cast; ring
  have hdy : (y : ℚ) - ((y : Int) : ℚ) = 0 := by push_cast; ring
  simp only [hdx, hdy, sub_zero, zero_mul, mul_zero, add_zero, one_mul]
  unfold Mat.atRefl
  rw [reflectIdx_of_lt _ _ hy, reflectIdx_of_lt _ _ hx]

/-- Claim C2: for every `newDepth` and every defined `previousFiltered` of the
same dimensions, the temporal filter succeeds and its output equals,
pixelwise, `ALPHA * previousFiltered + (1 - ALPHA) * newDepth`, where the
constant `TEMPORAL_ALPHA` lies in `(0, 1)` and defaults to `0.9`. -/
theorem temporal_filter_pixelwise_ema (nd pf : Mat ℚ)
    (hh : pf.height = nd.height) (hw : pf.width = nd.width)
    (y x : Nat) (hy : y < nd.height) (hx : x < nd.width) :
    (0 < TEMPORAL_ALPHA ∧ TEMPORAL_ALPHA < 1 ∧ TEMPORAL_ALPHA = 9 / 10) ∧
    ∃ out, apply_temporal_filter TEMPORAL_ALPHA nd pf = Except.ok out ∧
      out.height = nd.height ∧ out.width = nd.width ∧
      out.entry 0 y x =
        TEMPORAL_ALPHA * pf.entry 0 y x +
          (1 - TEMPORAL_ALPHA) * nd.entry 0 y x := by
  refine ⟨⟨by norm_num [TEMPORAL_ALPHA], by norm_num [TEMPORAL_ALPHA], rfl⟩, ?_⟩
  unfold apply_temporal_filter
  rw [if_pos ⟨Or.inl hh, Or.inl hw⟩]
  rw [hh, hw, Nat.max_self, Nat.max_self]
  refine ⟨_, rfl, Mat.height_ofFn .., Mat.width_ofFn _ _ _ (by omega), ?_⟩
  rw [Mat.entry_ofFn _ _ _ _ _ _ hy hx,
    Mat.bget_eq_entry pf y x (by omega) (by omega),
    Mat.bget_eq_entry nd y x hy hx]

/-- Witness for C2 at a concrete input: blending the 1×1 maps `[[12]]` (the
previous filtered map) and `[[2]]` (the new depth) gives `[[11]]`. -/
theorem temporal_filter_pixelwise_ema_witness :
    (0 < TEMPORAL_ALPHA ∧ TEMPORAL_ALPHA < 1 ∧ TEMPORAL_ALPHA = 9 / 10) ∧
    ∃ out,
      apply_temporal_filter TEMPORAL_ALPHA (⟨[[2]]⟩ : Mat ℚ) ⟨[[12]]⟩ =
        Except.ok out ∧
      out.height = (⟨[[2]]⟩ : Mat ℚ).height ∧
      out.width = (⟨[[2]]⟩ : Mat ℚ).width ∧
      out.entry 0 0 0 =
        TEMPORAL_ALPHA * (⟨[[12]]⟩ : Mat ℚ).entry 0 0 0 +
          (1 - TEMPORAL_ALPHA) * (⟨[[2]]⟩ : Mat ℚ).entry 0 0 0 :=
  temporal_filter_pixelwise_ema ⟨[[2]]⟩ ⟨[[12]]⟩ rfl rfl 0 0
    (by decide) (by decide)

/-- Claim C3: when the stored filtered depth is undefined, the temporal
smoothing stage of the main loop outputs the new depth map unchanged — no
smoothing is applied on the initialization case. -/
theorem temporal_smooth_stage_init_id (d : Depth) :
    temporalSmoothStage d none = Except.ok d := rfl

/-- Claim C4: for same-dimension grays the depth propagator computes the flow
field from the two grays and returns, at every output pixel `(x, y)`, the
previous depth sampled bilinearly at `(x + flow_x(x,y), y + flow_y(x,y))`;
out-of-bounds source indices are resolved by mirroring them back into range
(`reflectIdx` maps into `[0, len)`, is the identity in range, and reflects
`-1 - i` to `i` and `len + i` to `len - 1 - i`, which is a reflective policy
rather than clamping or a constant fill). -/
theorem remap_entry (src mx my : Mat ℚ) (y x : Nat)
    (hy : y < mx.height) (hx : x < mx.width) :
    (remap src mx my).entry 0 y x =
      bilinearSample src (mx.entry 0 y x) (my.entry 0 y x) := by
  unfold remap
  rw [Mat.entry_ofFn _ _ _ _ _ _ hy hx]

theorem propagate_warp_bilinear_reflect (oracle : FlowOracle)
    (pg cg : Gray) (pd : Depth)
    (hh : pg.height = cg.height) (hw : pg.width = cg.width) :
    ∃ warped,
      propagate_depth_optical_flow oracle pg cg pd = Except.ok warped ∧
      warped.height = pg.height ∧
      (0 < pg.height → warped.width = pg.width) ∧
      (∀ y x, y < pg.height → x < pg.width →
        warped.entry 0 y x =
          bilinearSample pd ((x : ℚ) + (oracle pg cg y x).fx)
            ((y : ℚ) + (oracle pg cg y x).fy)) ∧
      (∀ d y x, Mat.atRefl d y x =
        d.entry 0 (reflectIdx d.height y) (reflectIdx d.width x)) ∧
      (∀ len p, 0 < len → reflectIdx len p < len) ∧
      (∀ len i, i < len → reflectIdx len (i : Int) = i) ∧
      (∀ len i, i < len →
        reflectIdx len (-1 - (i : Int)) = i ∧
        reflectIdx len ((len : Int) + i) = len - 1 - i) := by
  unfold propagate_depth_optical_flow calcOpticalFlowFarneback
  rw [if_pos ⟨hh, hw⟩]
  refine ⟨_, rfl, ?_, ?_, ?_, fun d y x => rfl, reflectIdx_lt,
    reflectIdx_of_lt, fun len i hi =>
      ⟨reflectIdx_mirror_low len i hi, reflectIdx_mirror_high len i hi⟩⟩
  · unfold remap
    simp [Mat.height_ofFn]
  · intro hpos
    have hwflow := Mat.width_ofFn pg.height pg.width
      (fun j i => oracle pg cg j i) hpos
    unfold remap
    simp only [Mat.height_ofFn, hwflow]
    rw [Mat.width_ofFn _ _ _ hpos]
    exact Mat.width_ofFn _ _ _ hpos
  · intro y x hy hx
    have hpos : 0 < pg.height := by omega
    have hwflow := Mat.width_ofFn pg.height pg.width
      (fun j i => oracle pg cg j i) hpos
    rw [remap_entry _ _ _ y x (by simp only [Mat.height_ofFn]; exact hy)
      (by simp only [Mat.height_ofFn, hwflow]
          rw [Mat.width_ofFn _ _ _ hpos]; exact hx)]
    simp only [Mat.height_ofFn, hwflow]
    rw [Mat.entry_ofFn _ _ _ _ _ _ hy hx, Mat.entry_ofFn _ _ _ _ _ _ hy hx,
      Mat.entry_ofFn _ _ _ _ _ _ hy hx, Mat.entry_ofFn _ _ _ _ _ _ hy hx]

/-- Witness for C4 at a concrete input: a constant flow of `(1/2, 0)` over a
2×2 depth map `[[1, 3], [5, 7]]` warps pixel `(0, 0)` to the bilinear sample
at `(1/2, 0)`, which is `2`. -/
theorem propagate_warp_bilinear_reflect_witness :
    ∃ warped,
      propagate_depth_optical_flow (fun _ _ _ _ => ⟨1 / 2, 0⟩)
        (⟨[[0, 0], [0, 0]]⟩ : Gray) ⟨[[0, 0], [0, 0]]⟩
        (⟨[[1, 3], [5, 7]]⟩ : Depth) = Except.ok warped ∧
      warped.height = (⟨[[0, 0], [0, 0]]⟩ : Gray).height ∧
      (0 < (⟨[[0, 0], [0, 0]]⟩ : Gray).height →
        warped.width = (⟨[[0, 0], [0, 0]]⟩ : Gray).width) ∧
      (∀ y x, y < (⟨[[0, 0], [0, 0]]⟩ : Gray).height →
        x < (⟨[[0, 0], [0, 0]]⟩ : Gray).width →
        warped.entry 0 y x =
          bilinearSample ⟨[[1, 3], [5, 7]]⟩ ((x : ℚ) + 1 / 2) ((y : ℚ) + 0)) ∧
      (∀ d y x, Mat.atRefl d y x =
        d.entry 0 (reflectIdx d.height y) (reflectIdx d.width x)) ∧
      (∀ len p, 0 < len → reflectIdx len p < len) ∧
      (∀ len i, i < len → reflectIdx len (i : Int) = i) ∧
      (∀ len i, i < len →
        reflectIdx len (-1 - (i : Int)) = i ∧
        reflectIdx len ((len : Int) + i) = len - 1 - i) :=
  propagate_warp_bilinear_reflect (fun _ _ _ _ => ⟨1 / 2, 0⟩)
    ⟨[[0, 0], [0, 0]]⟩ ⟨[[0, 0], [0, 0]]⟩ ⟨[[1, 3], [5, 7]]⟩ rfl rfl

/-- Claim C8: when the flow estimator's two grayscale inputs differ in
spatial dimensions, the call fails with `DimensionMismatch` at the component
boundary — no flow field is produced and the depth propagator returns the
error, producing no propagated depth map. -/
theorem flow_dim_mismatch_rejected (oracle : FlowOracle)
    (pg cg : Gray) (pd : Depth)
    (h : ¬(pg.height = cg.height ∧ pg.width = cg.width)) :
    calcOpticalFlowFarneback oracle pg cg =
      Except.error PErr.dimensionMismatch ∧
    propagate_depth_optical_flow oracle pg cg pd =
      Except.error PErr.dimensionMismatch := by
  have h1 : calcOpticalFlowFarneback oracle pg cg =
      Except.error PErr.dimensionMismatch := by
    unfold calcOpticalFlowFarneback
    rw [if_neg h]
  refine ⟨h1, ?_⟩
  unfold propagate_depth_optical_flow
  rw [h1]

/-- Witness for C8 at a concrete input: a 1×1 gray against a 2×1 gray is
rejected with `DimensionMismatch`. -/
theorem flow_dim_mismatch_rejected_witness :
    calcOpticalFlowFarneback (fun _ _ _ _ => ⟨0, 0⟩) (⟨[[1]]⟩ : Gray)
      ⟨[[1], [2]]⟩ = Except.error PErr.dimensionMismatch ∧
    propagate_depth_optical_flow (fun _ _ _ _ => ⟨0, 0⟩) (⟨[[1]]⟩ : Gray)
      ⟨[[1], [2]]⟩ (⟨[[4]]⟩ : Depth) =
      Except.error PErr.dimensionMismatch :=
  flow_dim_mismatch_rejected (fun _ _ _ _ => ⟨0, 0⟩) ⟨[[1]]⟩ ⟨[[1], [2]]⟩
    ⟨[[4]]⟩ (by decide)

theorem Mat.ofFn_congr (h w : Nat) (f g : Nat → Nat → α)
    (hfg : ∀ y < h, ∀ x < w, f y x = g y x) :
    Mat.ofFn h w f = Mat.ofFn h w g := by
  unfold Mat.ofFn
  congr 1
  refine List.map_congr_left fun y hy => ?_
  refine List.map_congr_left fun x hx => ?_
  exact hfg y (List.mem_range.mp hy) x (List.mem_range.mp hx)

theorem Mat.ofFn_entry_self (m : Mat α) (d : α) (hwf : m.wf) :
    Mat.ofFn m.height m.width (fun y x => m.entry d y x) = m := by
  obtain ⟨rows⟩ := m
  unfold Mat.ofFn
  congr 1
  apply List.ext_getElem
  · simp [Mat.height]
  intro y hy1 hy2
  have hy : y < rows.length := hy2
  rw [List.getElem_map, List.getElem_range]
  apply List.ext_getElem
  · have := hwf rows[y] (List.getElem_mem hy)
    simpa [Mat.width] using this.symm
  intro x hx1 hx2
  rw [List.getElem_map, List.getElem_range]
  show (rows.getD y []).getD x d = rows[y][x]
  have hrow : rows.getD y [] = rows[y] := by
    rw [List.getD_eq_getElem?_getD, List.getElem?_eq_getElem hy]
    rfl
  rw [hrow, List.getD_eq_getElem?_getD, List.getElem?_eq_getElem hx2]
  rfl

instance (m : Mat α) : Decidable m.wf :=
  decidable_of_iff (∀ r ∈ m.data, r.length = m.width) Iff.rfl

/-- The all-zero flow field oracle: no estimated motion anywhere. -/
def zeroFlowOracle : FlowOracle := fun _ _ _ _ => ⟨0, 0⟩

/-- Claim C9: the depth propagator's warp step with an all-zero flow field is
the identity — for same-dimension inputs, warping `prev_depth` with zero
displacement returns `prev_depth` exactly (the embedding samples with exact
rational arithmetic, so no resampling rounding occurs). -/
theorem propagate_zero_flow_identity (pg cg : Gray) (pd : Depth)
    (hh : pg.height = cg.height) (hw : pg.width = cg.width)
    (hph : pd.height = pg.height) (hpw : pd.width = pg.width)
    (hwf : pd.wf) :
    propagate_depth_optical_flow zeroFlowOracle pg cg pd = Except.ok pd := by
  unfold propagate_depth_optical_flow calcOpticalFlowFarneback
  rw [if_pos ⟨hh, hw⟩]
  rcases Nat.eq_zero_or_pos pg.height with hz | hpos
  · have hdz : pd.data = [] := List.length_eq_zero.mp (hph.trans hz)
    unfold remap
    simp only [Mat.height_ofFn, hz]
    obtain ⟨rows⟩ := pd
    simp only [Mat.data] at hdz
    subst hdz
    rfl
  · have hwflow := Mat.width_ofFn pg.height pg.width
      (fun j i => zeroFlowOracle pg cg j i) hpos
    unfold remap
    simp only [Mat.height_ofFn, hwflow]
    rw [Mat.width_ofFn _ _ _ hpos]
    congr 1
    conv_rhs => rw [← Mat.ofFn_entry_self pd 0 hwf]
    rw [← hph, ← hpw]
    apply Mat.ofFn_congr
    intro y hy x hx
    rw [Mat.entry_ofFn _ _ _ _ _ _ hy hx, Mat.entry_ofFn _ _ _ _ _ _ hy hx,
      Mat.entry_ofFn _ _ _ _ _ _ hy hx, Mat.entry_ofFn _ _ _ _ _ _ hy hx]
    simp only [zeroFlowOracle, add_zero]
    exact bilinearSample_natCast pd y x hy hx

/-- Witness for C9 at a concrete input: zero flow over 2×2 grays returns the
2×2 depth map `[[1, 3], [5, 7]]` unchanged. -/
theorem propagate_zero_flow_identity_witness :
    propagate_depth_optical_flow zeroFlowOracle (⟨[[0, 0], [0, 0]]⟩ : Gray)
      ⟨[[0, 0], [0, 0]]⟩ (⟨[[1, 3], [5, 7]]⟩ : Depth) =
      Except.ok (⟨[[1, 3], [5, 7]]⟩ : Depth) :=
  propagate_zero_flow_identity ⟨[[0, 0], [0, 0]]⟩ ⟨[[0, 0], [0, 0]]⟩
    ⟨[[1, 3], [5, 7]]⟩ rfl rfl rfl rfl (by decide)

/-- Claim C10: for every weight strictly between 0 and 1 and every pair of
defined same-dimension inputs, each pixel of the temporal filter's output is
a convex combination of the two inputs at that pixel — it lies between their
pixelwise minimum and maximum, so the filter never overshoots or undershoots
either input. -/
theorem temporal_filter_convex_bounds (a : ℚ) (nd pf : Mat ℚ)
    (ha0 : 0 < a) (ha1 : a < 1)
    (hh : pf.height = nd.height) (hw : pf.width = nd.width)
    (y x : Nat) (hy : y < nd.height) (hx : x < nd.width) :
    ∃ out, apply_temporal_filter a nd pf = Except.ok out ∧
      min (pf.entry 0 y x) (nd.entry 0 y x) ≤ out.entry 0 y x ∧
      out.entry 0 y x ≤ max (pf.entry 0 y x) (nd.entry 0 y x) := by
  unfold apply_temporal_filter
  rw [if_pos ⟨Or.inl hh, Or.inl hw⟩, hh, hw, Nat.max_self, Nat.max_self]
  refine ⟨_, rfl, ?_⟩
  rw [Mat.entry_ofFn _ _ _ _ _ _ hy hx,
    Mat.bget_eq_entry pf y x (by omega) (by omega),
    Mat.bget_eq_entry nd y x hy hx]
  set p := pf.entry 0 y x with hp
  set n := nd.entry 0 y x with hn
  constructor
  · nlinarith [mul_nonneg ha0.le (sub_nonneg.mpr (min_le_left p n)),
      mul_nonneg (by linarith : (0 : ℚ) ≤ 1 - a)
        (sub_nonneg.mpr (min_le_right p n))]
  · nlinarith [mul_nonneg ha0.le (sub_nonneg.mpr (le_max_left p n)),
      mul_nonneg (by linarith : (0 : ℚ) ≤ 1 - a)
        (sub_nonneg.mpr (le_max_right p n))]

/-- Witness for C10 at a concrete input: weight `1/4` blending `[[8]]` (the
previous filtered map) and `[[4]]` (the new depth) stays between 4 and 8. -/
theorem temporal_filter_convex_bounds_witness :
    ∃ out, apply_temporal_filter (1 / 4) (⟨[[4]]⟩ : Mat ℚ) ⟨[[8]]⟩ =
        Except.ok out ∧
      min ((⟨[[8]]⟩ : Mat ℚ).entry 0 0 0) ((⟨[[4]]⟩ : Mat ℚ).entry 0 0 0) ≤
        out.entry 0 0 0 ∧
      out.entry 0 0 0 ≤
        max ((⟨[[8]]⟩ : Mat ℚ).entry 0 0 0) ((⟨[[4]]⟩ : Mat ℚ).entry 0 0 0) :=
  temporal_filter_convex_bounds (1 / 4) ⟨[[4]]⟩ ⟨[[8]]⟩ (by norm_num)
    (by norm_num) rfl rfl 0 0 (by decide) (by decide)

theorem finishFrame_ok (s : PipelineState) (gray : Gray) (dm : Depth)
    (out : Depth) (s2 : PipelineState)
    (h : finishFrame s gray dm = (Except.ok out, s2)) :
    temporalSmoothStage dm s.filtered_depth = Except.ok out ∧
    s2 = { frame_count := s.frame_count + 1
           prev_gray := some gray
           prev_depth := some dm
           filtered_depth := some out } := by
  unfold finishFrame at h
  cases hts : temporalSmoothStage dm s.filtered_depth with
  | error e =>
    rw [hts] at h
    exact absurd (congrArg Prod.fst h) (by simp)
  | ok fd =>
    rw [hts] at h
    simp only [Prod.mk.injEq, Except.ok.injEq] at h
    obtain ⟨h1, h2⟩ := h
    subst h1
    exact ⟨rfl, h2.symm⟩

theorem finishFrame_error (s : PipelineState) (gray : Gray) (dm : Depth)
    (e : PErr) (s2 : PipelineState)
    (h : finishFrame s gray dm = (Except.error e, s2)) :
    temporalSmoothStage dm s.filtered_depth = Except.error e ∧ s2 = s := by
  unfold finishFrame at h
  cases hts : temporalSmoothStage dm s.filtered_depth with
  | error e2 =>
    rw [hts] at h
    simp only [Prod.mk.injEq, Except.error.injEq] at h
    obtain ⟨h1, h2⟩ := h
    subst h1
    exact ⟨rfl, h2.symm⟩
  | ok fd =>
    rw [hts] at h
    exact absurd (congrArg Prod.fst h) (by simp)

/-- A constant inference collaborator, used for concrete runs. -/
def constMidas (d : Mat ℚ) : Mat Pix → Except PErr (Mat ℚ) := fun _ => .ok d

/-- Claim C5: after every successfully processed frame, on both paths, the
orchestrator sets `previousGray` to the current grayscale frame, increments
`frameIndex` by exactly 1, stores the filtered output in `filteredDepth`, and
stores in `previousDepth` a raw depth map whose smoothing (against the
pre-call filtered state) is exactly the returned output — i.e. the
pre-filter map, so the filtered output never feeds back into the
propagation source. -/
theorem process_frame_state_update (oracle : FlowOracle)
    (midas : Mat Pix → Except PErr (Mat ℚ)) (s : PipelineState)
    (frame : Mat Pix) (out : Depth) (s2 : PipelineState)
    (h : processFrame oracle midas s frame = (Except.ok out, s2)) :
    s2.frame_count = s.frame_count + 1 ∧
    s2.prev_gray = some (cvtColorBGR2GRAY frame) ∧
    s2.filtered_depth = some out ∧
    ∃ raw, s2.prev_depth = some raw ∧
      temporalSmoothStage raw s.filtered_depth = Except.ok out := by
  simp only [processFrame] at h
  split at h
  · split at h
    · exact absurd (congrArg Prod.fst h) (by simp)
    · rename_i dm hm
      obtain ⟨hts, hs2⟩ := finishFrame_ok _ _ _ _ _ h
      subst hs2
      exact ⟨rfl, rfl, rfl, dm, rfl, hts⟩
  · split at h
    · rename_i pg pd
      split at h
      · exact absurd (congrArg Prod.fst h) (by simp)
      · rename_i dm hprop
        obtain ⟨hts, hs2⟩ := finishFrame_ok _ _ _ _ _ h
        subst hs2
        exact ⟨rfl, rfl, rfl, dm, rfl, hts⟩
    · exact absurd (congrArg Prod.fst h) (by simp)

/-- A small concrete frame for witnesses. -/
def exFrame : Mat Pix := ⟨[[⟨1, 2, 3⟩]]⟩

/-- The empty pre-first-frame state. -/
def exState0 : PipelineState := ⟨0, none, none, none⟩

/-- The state after processing `exFrame` from the empty state with a constant
collaborator returning `[[5]]`. -/
def exState1 : PipelineState :=
  ⟨1, some (cvtColorBGR2GRAY exFrame), some ⟨[[5]]⟩, some ⟨[[5]]⟩⟩

/-- Witness for C5 at a concrete input: processing one 1×1 frame from the
empty state with a constant collaborator. -/
theorem process_frame_state_update_witness :
    exState1.frame_count = exState0.frame_count + 1 ∧
    exState1.prev_gray = some (cvtColorBGR2GRAY exFrame) ∧
    exState1.filtered_depth = some (⟨[[5]]⟩ : Depth) ∧
    ∃ raw, exState1.prev_depth = some raw ∧
      temporalSmoothStage raw exState0.filtered_depth =
        Except.ok (⟨[[5]]⟩ : Depth) :=
  process_frame_state_update zeroFlowOracle (constMidas ⟨[[5]]⟩) exState0
    exFrame ⟨[[5]]⟩ exState1 rfl

theorem resizeTo_height (h w : Nat) (m : Mat ℚ) :
    (resizeTo h w m).height = h := by
  unfold resizeTo
  exact Mat.height_ofFn ..

theorem resizeTo_width (h w : Nat) (m : Mat ℚ) (hpos : 0 < h) :
    (resizeTo h w m).width = w := by
  unfold resizeTo
  exact Mat.width_ofFn _ _ _ hpos

theorem estimate_ok (midas : Mat Pix → Except PErr (Mat ℚ)) (frame : Mat Pix)
    (dm : Mat ℚ) (h : estimate_depth_midas midas frame = Except.ok dm) :
    ∃ pred, midas frame = Except.ok pred ∧
      dm = resizeTo frame.height frame.width pred := by
  unfold estimate_depth_midas at h
  cases hm : midas frame with
  | error e =>
    rw [hm] at h
    exact absurd h (by simp)
  | ok pred =>
    rw [hm] at h
    simp only [Except.ok.injEq] at h
    exact ⟨pred, rfl, h.symm⟩

theorem propagate_ok_dims (oracle : FlowOracle) (pg cg : Gray) (pd : Depth)
    (dm : Depth) (h : propagate_depth_optical_flow oracle pg cg pd =
      Except.ok dm) :
    pg.height = cg.height ∧ pg.width = cg.width ∧
    dm.height = pg.height ∧ (0 < pg.height → dm.width = pg.width) := by
  unfold propagate_depth_optical_flow calcOpticalFlowFarneback at h
  by_cases hc : pg.height = cg.height ∧ pg.width = cg.width
  · rw [if_pos hc] at h
    simp only [Except.ok.injEq] at h
    subst h
    refine ⟨hc.1, hc.2, ?_, ?_⟩
    · unfold remap
      simp [Mat.height_ofFn]
    · intro hpos
      have hwflow := Mat.width_ofFn pg.height pg.width
        (fun j i => oracle pg cg j i) hpos
      unfold remap
      simp only [Mat.height_ofFn, hwflow]
      rw [Mat.width_ofFn _ _ _ hpos]
      exact Mat.width_ofFn _ _ _ hpos
  · rw [if_neg hc] at h
    exact absurd h (by simp)

theorem temporal_smooth_stage_dims (dm : Depth) (fd : Option Depth)
    (out : Depth) (hpos : 0 < dm.height)
    (hfd : ∀ f, fd = some f → f.height = dm.height ∧ f.width = dm.width)
    (h : temporalSmoothStage dm fd = Except.ok out) :
    out.height = dm.height ∧ out.width = dm.width := by
  cases fd with
  | none =>
    simp only [temporalSmoothStage, Except.ok.injEq] at h
    subst h
    exact ⟨rfl, rfl⟩
  | some f =>
    obtain ⟨h1, h2⟩ := hfd f rfl
    simp only [temporalSmoothStage] at h
    unfold apply_temporal_filter at h
    rw [if_pos ⟨Or.inl h1, Or.inl h2⟩] at h
    simp only [Except.ok.injEq] at h
    subst h
    constructor
    · simp only [h1, h2, Nat.max_self, Mat.height_ofFn]
    · simp only [h1, h2, Nat.max_self]
      exact Mat.width_ofFn _ _ _ hpos

/-- Claim C6: for every submitted frame, the depth map produced by
`processFrame` has the frame's spatial dimensions, on both the `INFER` path
(where the collaborator's result is resized back to the frame's dimensions)
and the `PROPAGATE` path — under the stream invariant that a stored filtered
depth, when defined, has the stream's frame dimensions (spec section 3), and
for a nonempty frame. -/
theorem process_frame_output_dims (oracle : FlowOracle)
    (midas : Mat Pix → Except PErr (Mat ℚ)) (s : PipelineState)
    (frame : Mat Pix) (out : Depth) (s2 : PipelineState)
    (hpos : 0 < frame.height)
    (hfd : ∀ f, s.filtered_depth = some f →
      f.height = frame.height ∧ f.width = frame.width)
    (h : processFrame oracle midas s frame = (Except.ok out, s2)) :
    out.height = frame.height ∧ out.width = frame.width := by
  simp only [processFrame] at h
  split at h
  · split at h
    · exact absurd (congrArg Prod.fst h) (by simp)
    · rename_i dm hm
      obtain ⟨hts, hs2⟩ := finishFrame_ok _ _ _ _ _ h
      obtain ⟨pred, hpred, hdm⟩ := estimate_ok _ _ _ hm
      subst hdm
      have hdh : (resizeTo frame.height frame.width pred).height =
        frame.height := resizeTo_height ..
      have hdw : (resizeTo frame.height frame.width pred).width =
        frame.width := resizeTo_width _ _ _ hpos
      have := temporal_smooth_stage_dims _ _ _ (by omega)
        (fun f hf => by
          obtain ⟨a, b⟩ := hfd f hf
          exact ⟨by omega, by omega⟩) hts
      exact ⟨by omega, by omega⟩
  · split at h
    · rename_i pg pd
      split at h
      · exact absurd (congrArg Prod.fst h) (by simp)
      · rename_i dm hprop
        obtain ⟨hts, hs2⟩ := finishFrame_ok _ _ _ _ _ h
        obtain ⟨hgh, hgw, hdh, hdw⟩ := propagate_ok_dims _ _ _ _ _ hprop
        rw [cvtColor_height] at hgh
        rw [cvtColor_width] at hgw
        have hdw2 : dm.width = frame.width := by
          rw [hdw (by omega), hgw]
        have hdh2 : dm.height = frame.height := by rw [hdh, hgh]
        have := temporal_smooth_stage_dims _ _ _ (by omega)
          (fun f hf => by
            obtain ⟨a, b⟩ := hfd f hf
            exact ⟨by omega, by omega⟩) hts
        exact ⟨by omega, by omega⟩
    · exact absurd (congrArg Prod.fst h) (by simp)

/-- Witness for C6 at a concrete input: the run of the C5 witness produces a
1×1 depth map for a 1×1 frame. -/
theorem process_frame_output_dims_witness :
    (⟨[[5]]⟩ : Depth).height = exFrame.height ∧
    (⟨[[5]]⟩ : Depth).width = exFrame.width :=
  process_frame_output_dims zeroFlowOracle (constMidas ⟨[[5]]⟩) exState0
    exFrame ⟨[[5]]⟩ exState1 (by decide)
    (fun f hf => by simp [exState0] at hf) rfl

/-- Mid-stream state with a 3×3 stored filtered depth, about to receive an
INFER-scheduled frame (frame count 5). -/
def cexState : PipelineState :=
  ⟨5, some ⟨[[0]]⟩, some ⟨[[0]]⟩,
    some ⟨[[0, 0, 0], [0, 0, 0], [0, 0, 0]]⟩⟩

/-- A 2×2 frame whose inferred depth cannot be blended with a 3×3 filtered
depth. -/
def cexFrame : Mat Pix :=
  ⟨[[⟨0, 0, 0⟩, ⟨0, 0, 0⟩], [⟨0, 0, 0⟩, ⟨0, 0, 0⟩]]⟩

/-- The state left behind by that failing frame: `prev_depth` has been
overwritten with the new 2×2 raw depth although the frame's processing
failed. -/
def cexStateAfter : PipelineState :=
  ⟨5, some ⟨[[0]]⟩, some ⟨[[1, 1], [1, 1]]⟩,
    some ⟨[[0, 0, 0], [0, 0, 0], [0, 0, 0]]⟩⟩

/-- Counterexample to claim C7 as stated: on an INFER-scheduled frame whose
inferred 2×2 depth cannot be blended with the stored 3×3 filtered depth, the
temporal-filter stage fails and the error surfaces, but `prev_depth` has
already been overwritten by the source's early `prev_depth = depth_map`
assignment inside the inference branch — `PipelineState` is NOT left
entirely unchanged. -/
theorem process_frame_error_partial_update_cex :
    processFrame zeroFlowOracle (constMidas ⟨[[1, 1], [1, 1]]⟩) cexState
      cexFrame = (Except.error PErr.dimensionMismatch, cexStateAfter) ∧
    cexStateAfter ≠ cexState ∧
    cexStateAfter.prev_depth ≠ cexState.prev_depth :=
  ⟨rfl, by decide, by decide⟩

/-- Claim C7 (amended): when a stage of `processFrame` fails, the error
surfaces to the caller and `frame_count`, `prev_gray` and `filtered_depth`
always retain their pre-call values; the whole state is unchanged on every
PROPAGATE-scheduled failure (in particular the DimensionMismatch scenario)
and on every inference failure; and whenever the temporal-filter stage fails
on an INFER-scheduled frame (the only other failure mode of that path),
`prev_depth` has already been overwritten with that frame's raw depth. -/
theorem process_frame_error_state (oracle : FlowOracle)
    (midas : Mat Pix → Except PErr (Mat ℚ)) (s : PipelineState)
    (frame : Mat Pix) (e : PErr) (s2 : PipelineState)
    (h : processFrame oracle midas s frame = (Except.error e, s2)) :
    s2.frame_count = s.frame_count ∧ s2.prev_gray = s.prev_gray ∧
    s2.filtered_depth = s.filtered_depth ∧
    (scheduleDecision FRAME_SKIP s.frame_count s.prev_depth.isSome =
        Decision.PROPAGATE → s2 = s) ∧
    (scheduleDecision FRAME_SKIP s.frame_count s.prev_depth.isSome =
        Decision.INFER →
      (estimate_depth_midas midas frame = Except.error e ∧ s2 = s) ∨
      (∃ raw, estimate_depth_midas midas frame = Except.ok raw ∧
        temporalSmoothStage raw s.filtered_depth = Except.error e ∧
        s2 = { s with prev_depth := some raw })) := by
  simp only [processFrame] at h
  split at h
  · rename_i hd
    split at h
    · rename_i e0 hm
      obtain ⟨h1, h2⟩ := Prod.mk.injEq .. ▸ h
      subst h2
      exact ⟨rfl, rfl, rfl,
        fun hp => absurd (hd.symm.trans hp) (by decide),
        fun _ => Or.inl ⟨hm.trans h1, rfl⟩⟩
    · rename_i dm hm
      obtain ⟨hts, hs2⟩ := finishFrame_error _ _ _ _ _ h
      subst hs2
      exact ⟨rfl, rfl, rfl,
        fun hp => absurd (hd.symm.trans hp) (by decide),
        fun _ => Or.inr ⟨dm, hm, hts, rfl⟩⟩
  · rename_i hd
    split at h
    · rename_i pg pd
      split at h
      · obtain ⟨h1, h2⟩ := Prod.mk.injEq .. ▸ h
        subst h2
        exact ⟨rfl, rfl, rfl, fun _ => rfl,
          fun hi => absurd (hd.symm.trans hi) (by decide)⟩
      · rename_i dm hprop
        obtain ⟨hts, hs2⟩ := finishFrame_error _ _ _ _ _ h
        subst hs2
        exact ⟨rfl, rfl, rfl, fun _ => rfl,
          fun hi => absurd (hd.symm.trans hi) (by decide)⟩
    · obtain ⟨h1, h2⟩ := Prod.mk.injEq .. ▸ h
      subst h2
      exact ⟨rfl, rfl, rfl, fun _ => rfl,
        fun hi => absurd (hd.symm.trans hi) (by decide)⟩

/-- Mid-stream 1×1 state about to receive a PROPAGATE-scheduled frame. -/
def wState : PipelineState := ⟨1, some ⟨[[0]]⟩, some ⟨[[0]]⟩, some ⟨[[0]]⟩⟩

/-- Witness for amended C7 at a concrete input: a 2×2 frame on a
PROPAGATE-scheduled tick against a 1×1 stored gray raises DimensionMismatch
and leaves the state unchanged. -/
theorem process_frame_error_state_witness :
    wState.frame_count = wState.frame_count ∧
    wState.prev_gray = wState.prev_gray ∧
    wState.filtered_depth = wState.filtered_depth ∧
    (scheduleDecision FRAME_SKIP wState.frame_count
        wState.prev_depth.isSome = Decision.PROPAGATE → wState = wState) ∧
    (scheduleDecision FRAME_SKIP wState.frame_count
        wState.prev_depth.isSome = Decision.INFER →
      (estimate_depth_midas (constMidas ⟨[[1]]⟩) cexFrame =
          Except.error PErr.dimensionMismatch ∧ wState = wState) ∨
      (∃ raw, estimate_depth_midas (constMidas ⟨[[1]]⟩) cexFrame =
          Except.ok raw ∧
        temporalSmoothStage raw wState.filtered_depth =
          Except.error PErr.dimensionMismatch ∧
        wState = { wState with prev_depth := some raw })) :=
  process_frame_error_state zeroFlowOracle (constMidas ⟨[[1]]⟩) wState
    cexFrame PErr.dimensionMismatch wState rfl

end DepthPipeline
